import Mathlib

/-!
Shallow embedding of the Forge package-manager core, translated from the
TypeScript sources:

* `src/core/types.ts` — the data model (Dependency, Manifest, graph, results)
* `src/plugins/node-plugin.ts` — the Node adapter: deep/transitive resolution,
  download cache, tarball install, lock file
* the Python adapter (PythonPlugin, embedded next to the test suite):
  resolution over PyPI metadata with `findBestVersion`, `parseRequiresDist`,
  download cache, wheel/sdist install
* `src/core/forge-core.ts` — the `ForgeCore.install` scope-narrowing step

External collaborators (axios, the filesystem, the semver library, tar
extraction) are modelled as explicit oracles/state: network transfer outcomes
are an oracle `String → NetOutcome`, the artifact cache is an association list
from paths to file contents, registry metadata lookup for the Node adapter is
an oracle `String → String → Option VersionInfo` (the observable result of the
registry query plus `semver.maxSatisfying`), and the Python registry is a
finite association list of package metadata, with `findBestVersion` and its
helpers translated instruction by instruction from the source.
-/

deriving instance DecidableEq for Except

namespace Forge

/-- Dependency scope, from `types.ts` (`'production' | 'development' | 'peer' | 'optional'`). -/
inductive Scope where
  | production
  | development
  | peer
  | optional
deriving DecidableEq, Repr

/-- `Dependency` from `types.ts`: a name plus a version-range expression. -/
structure Dep where
  name : String
  versionRange : String
  scope : Scope := .production
deriving DecidableEq, Repr

/-- `PackageManifest` from `types.ts`: four dependency lists by scope.  The
free-form script map and format-specific metadata fields are carried through
the source untouched and no claim depends on them, so they are not
modelled. -/
structure Manifest where
  name : String
  version : String
  description : Option String := none
  dependencies : List Dep
  devDependencies : List Dep
  peerDependencies : List Dep
  optionalDependencies : List Dep
deriving DecidableEq, Repr

/-- `ResolvedPackage` from `types.ts`. -/
structure ResolvedPackage where
  name : String
  version : String
  registry : String
  downloadUrl : String
  integrity : Option String := none
  dependencies : List Dep
deriving DecidableEq, Repr

/-- `GraphNode` from `types.ts`. -/
structure GraphNode where
  pkg : ResolvedPackage
  dependencies : List String
  dependents : List String
deriving DecidableEq, Repr

/-- A JavaScript `Map` as an insertion-ordered association list:
`set` replaces the value in place when the key is present, else appends. -/
def jsMapSet (m : List (String × α)) (k : String) (v : α) : List (String × α) :=
  if m.any (fun p => p.1 = k) then
    m.map (fun p => if p.1 = k then (k, v) else p)
  else
    m ++ [(k, v)]

/-- `Map.get` / `Map.has` lookup. -/
def jsMapGet (m : List (String × α)) (k : String) : Option α :=
  (m.find? (fun p => p.1 = k)).map (·.2)

/-- `Map.has`. -/
def jsMapHas (m : List (String × α)) (k : String) : Bool :=
  m.any (fun p => p.1 = k)

/-- The keys of a JS map, in insertion order. -/
def jsMapKeys (m : List (String × α)) : List String := m.map (·.1)

/-! ### JavaScript string primitives

The JS string methods the plugins use (`split` on a single-character
separator, `trim`, `toLowerCase`, `startsWith`, `endsWith`, `includes`,
`substring`, `replace` over a character class) are embedded as structural
functions over the character list, so that every concrete run is computable
by the kernel. -/

/-- The `\s` character class (the whitespace JS `trim`/`\s*` handle, restricted
to the ASCII whitespace that can occur in the data). -/
def isJsSpace (c : Char) : Bool :=
  c = ' ' ∨ c = '\t' ∨ c = '\n' ∨ c = '\r'

/-- `String.prototype.split` with a single-character separator: `"".split(c)`
is `[""]`, and separators delimit (possibly empty) groups. -/
def splitCharsOn (sep : Char) : List Char → List (List Char)
  | [] => [[]]
  | c :: cs =>
      let rest := splitCharsOn sep cs
      if c = sep then [] :: rest
      else
        match rest with
        | [] => [[c]]
        | g :: gs => (c :: g) :: gs

/-- `s.split(sep)` for a one-character separator. -/
def jsSplitOnChar (sep : Char) (s : String) : List String :=
  (splitCharsOn sep s.toList).map (fun g => ⟨g⟩)

/-- `String.prototype.trim`. -/
def jsTrim (s : String) : String :=
  ⟨((s.toList.dropWhile isJsSpace).reverse.dropWhile isJsSpace).reverse⟩

/-- `String.prototype.toLowerCase`. -/
def jsToLower (s : String) : String :=
  ⟨s.toList.map Char.toLower⟩

/-- Does `p` start the list `l`? -/
def listStarts (p l : List Char) : Bool :=
  match p, l with
  | [], _ => true
  | _ :: _, [] => false
  | c :: p', d :: l' => c = d && listStarts p' l'

/-- `String.prototype.startsWith`. -/
def jsStartsWith (s pat : String) : Bool :=
  listStarts pat.toList s.toList

/-- `String.prototype.endsWith`. -/
def jsEndsWith (s pat : String) : Bool :=
  listStarts pat.toList.reverse s.toList.reverse

/-- Does `pat` occur inside `l`? -/
def listHasInfixOf (pat : List Char) : List Char → Bool
  | [] => pat.isEmpty
  | c :: cs => listStarts pat (c :: cs) || listHasInfixOf pat cs

/-- `String.prototype.includes`. -/
def jsIncludes (s pat : String) : Bool :=
  listHasInfixOf pat.toList s.toList

/-- `String.prototype.substring(n)`. -/
def jsSubstrFrom (s : String) (n : Nat) : String :=
  ⟨s.toList.drop n⟩

/-- `s.includes(c)` for a single character / `String.contains`. -/
def jsContainsChar (s : String) (c : Char) : Bool :=
  s.toList.contains c

/-- `String.prototype.replace` with a per-character replacement (the
character-class regexes `/[@\/]/g` and friends). -/
def jsMapChars (f : Char → Char) (s : String) : String :=
  ⟨s.toList.map f⟩

/-- `Array.prototype.join(sep)` / building a marker string back from split
parts. -/
def jsJoin (sep : String) : List String → String
  | [] => ""
  | [s] => s
  | s :: rest => s ++ sep ++ jsJoin sep rest

/-- `DependencyGraph` from `types.ts`: root name plus a `Map` of graph nodes. -/
structure DependencyGraph where
  root : String
  nodes : List (String × GraphNode)
deriving DecidableEq, Repr

/-- `InstallError` from `types.ts`. -/
structure InstallError where
  pkg : String
  error : String
  fatal : Bool
deriving DecidableEq, Repr

/-- `InstallResult` from `types.ts`, with packages abstracted to (name, version). -/
structure InstallResult where
  installed : List (String × String)
  updated : List (String × String)
  removed : List String
  errors : List InstallError
deriving DecidableEq, Repr

/-! ## Node adapter: dependency resolution (`NodePlugin.resolveDependencies`)

`getPackageVersionInfo` performs the registry HTTP query and then
`semver.maxSatisfying` over the available versions, returning the selected
version's metadata, or `null` when the query fails or no version satisfies the
range (both are caught inside it).  Its observable behavior is the oracle
`fetch : name → versionRange → Option VersionInfo`. -/

/-- The selected version's registry metadata, as `resolveDependency` consumes it:
`packageInfo.name`, `packageInfo.version`, `packageInfo.dependencies`,
`packageInfo.dist.tarball`, `packageInfo.dist.integrity`. -/
structure VersionInfo where
  name : String
  version : String
  dependencies : List (String × String)
  tarball : String
  integrity : Option String := none
deriving DecidableEq, Repr

/-- `NodePlugin.convertDependencies`: record of ranges to `Dependency[]`, all production scope. -/
def convertDependencies (deps : List (String × String)) : List Dep :=
  deps.map (fun p => { name := p.1, versionRange := p.2, scope := .production })

/-- The mutable state threaded through `resolveDependency`: the graph's node map
plus the `visited` and `resolving` sets. -/
structure NodeResolveState where
  nodes : List (String × GraphNode)
  visited : List String
  resolving : List String
deriving DecidableEq, Repr

/-- `NodePlugin.resolveDependency`, translated line by line.  A thrown
`Error` is an `Except.error`; since uncaught errors propagate out of
`resolveDependencies`, the error path discards the (shared, mutable) state
just as the caller never observes it.  `fuel` only makes the recursion
structural: a call at recursion level `k` has `depth = k` and receives
`fuel = 102 - k`, and since the source's own `depth > 100` guard returns
before level 102 is reached, the `fuel = 0` branch is unreachable from
`nodeResolveDependencies` and the function computes exactly what the source
does. -/
def resolveDependency (fetch : String → String → Option VersionInfo)
    (registry : String) : Nat → Dep → NodeResolveState → Nat →
    Except String NodeResolveState
  | 0, _, st, _ => .ok st
  | fuel + 1, dep, st, depth =>
    let depKey := dep.name ++ "@" ++ dep.versionRange
    if st.visited.contains depKey ∨ depth > 100 then
      .ok st
    else if st.resolving.contains depKey then
      .error ("Circular dependency detected: " ++ depKey)
    else
      let st1 : NodeResolveState := { st with resolving := st.resolving ++ [depKey] }
      match fetch dep.name dep.versionRange with
      | none =>
          -- `throw new Error(...)`; the `finally` removes `depKey` from
          -- `resolving` before the error propagates.
          .error ("Package " ++ depKey ++ " not found")
      | some info =>
          let resolvedPackage : ResolvedPackage :=
            { name := info.name
              version := info.version
              registry := registry
              downloadUrl := info.tarball
              integrity := info.integrity
              dependencies := convertDependencies info.dependencies }
          let node : GraphNode :=
            { pkg := resolvedPackage
              dependencies := info.dependencies.map (·.1)
              dependents := [] }
          let st2 : NodeResolveState :=
            { st1 with
              nodes := jsMapSet st1.nodes resolvedPackage.name node
              visited := st1.visited ++ [depKey] }
          -- the `for (const subDep of resolvedPackage.dependencies)` loop
          match resolvedPackage.dependencies.foldlM
              (fun acc subDep => resolveDependency fetch registry fuel subDep acc (depth + 1))
              st2 with
          | .ok st3 => .ok { st3 with resolving := st3.resolving.erase depKey }
          | .error e => .error e

/-- `NodePlugin.resolveDependencies`: combines the production, development and
optional dependency lists (peer dependencies are omitted) and resolves each in
order, starting at depth 0 (with fuel 102, which the `depth > 100` guard keeps
from ever reaching 0). -/
def nodeResolveDependencies (fetch : String → String → Option VersionInfo)
    (registry : String) (manifest : Manifest) : Except String DependencyGraph :=
  let allDependencies :=
    manifest.dependencies ++ manifest.devDependencies ++ manifest.optionalDependencies
  match allDependencies.foldlM
      (fun acc dep => resolveDependency fetch registry 102 dep acc 0)
      { nodes := [], visited := [], resolving := [] : NodeResolveState } with
  | .ok st => .ok { root := manifest.name, nodes := st.nodes }
  | .error e => .error e

/-! ## Python adapter: version selection and dependency resolution

The PythonPlugin resolves against PyPI JSON metadata.  The registry is a
finite association list `name → PyPkg`; `fetchPackageInfo`'s HTTP layer and all
its caught errors collapse to a lookup that can miss. -/

/-- One file of a PyPI release (`releases[version][i]`). -/
structure PyFile where
  filename : String
  url : String
  packagetype : String
deriving DecidableEq, Repr

/-- PyPI package metadata as the plugin consumes it: `info.name`,
`info.requires_dist` and the `releases` map (version → files, insertion order
of `Object.keys`). -/
structure PyPkg where
  name : String
  requiresDist : List String
  releases : List (String × List PyFile)
deriving DecidableEq, Repr

/-- JavaScript `parseInt(s) || 0`: optional leading whitespace and sign, then
the longest digit run; no digits (`NaN`) gives `0`. -/
def jsParseIntOr0 (s : String) : Int :=
  let cs := s.toList.dropWhile isJsSpace
  let signAndRest : Int × List Char :=
    match cs with
    | '-' :: rest => (-1, rest)
    | '+' :: rest => (1, rest)
    | _ => (1, cs)
  let digits := signAndRest.2.takeWhile Char.isDigit
  if digits.isEmpty then 0
  else signAndRest.1 * (digits.foldl (fun acc c => acc * 10 + (c.toNat - 48)) 0 : Nat)

/-- Tail of the `compareVersions` index loop once the first version has run
out of parts: compare `0` against each remaining part. -/
def cmpZeros : List Int → Int
  | [] => 0
  | b :: bs => if 0 > b then 1 else if 0 < b then -1 else cmpZeros bs

/-- The index loop of `PythonPlugin.compareVersions`, with the shorter list
padded by `aParts[i] || 0`. -/
def cmpParts : List Int → List Int → Int
  | [], bs => cmpZeros bs
  | a :: as, bs =>
      let b := bs.headD 0
      if a > b then 1 else if a < b then -1 else cmpParts as bs.tail

/-- `PythonPlugin.compareVersions`: split on `.`, `parseInt(n) || 0` each part,
compare componentwise. -/
def compareVersions (a b : String) : Int :=
  cmpParts ((jsSplitOnChar '.' a).map jsParseIntOr0) ((jsSplitOnChar '.' b).map jsParseIntOr0)

/-- Insert `x` into an already comparator-sorted list, after every element it
does not strictly precede.  Building a sort from this insertion yields the
stable result required of `Array.prototype.sort` (ES2019): elements comparing
equal keep their original relative order, which determines the output
uniquely. -/
def jsSortInsert (cmp : α → α → Int) (x : α) : List α → List α
  | [] => [x]
  | y :: ys => if cmp x y < 0 then x :: y :: ys else y :: jsSortInsert cmp x ys

/-- `Array.prototype.sort(cmp)`: the stable sort, ascending by the
comparator. -/
def jsSort (cmp : α → α → Int) (l : List α) : List α :=
  l.foldl (fun acc x => jsSortInsert cmp x acc) []

/-- `availableVersions.sort((a, b) => this.compareVersions(b, a))`: stable,
descending by `compareVersions`. -/
def sortVersionsDesc (vs : List String) : List String :=
  jsSort (fun a b => compareVersions b a) vs

/-- JavaScript `sorted[0] || null`: `undefined` for an empty array and the
falsy empty string both become `null`. -/
def jsHeadOrNull (l : List String) : Option String :=
  match l.head? with
  | none => none
  | some s => if s = "" then none else some s

/-- `PythonPlugin.findBestVersion`, translated branch by branch:
wildcard/empty → latest; `==` → exact; `>=` → highest not below the minimum;
anything else → latest. -/
def findBestVersion (availableVersions : List String) (versionRange : String) : Option String :=
  if versionRange = "*" ∨ versionRange = "" then
    jsHeadOrNull (sortVersionsDesc availableVersions)
  else if jsStartsWith versionRange "==" then
    let exactVersion := jsTrim (jsSubstrFrom versionRange 2)
    if availableVersions.contains exactVersion then some exactVersion else none
  else if jsStartsWith versionRange ">=" then
    let minVersion := jsTrim (jsSubstrFrom versionRange 2)
    let candidates := availableVersions.filter (fun v => decide (compareVersions v minVersion ≥ 0))
    jsHeadOrNull (sortVersionsDesc candidates)
  else
    jsHeadOrNull (sortVersionsDesc availableVersions)

/-- The character class `[a-zA-Z0-9_-]` of the `parseRequiresDist` regex. -/
def isPyNameChar (c : Char) : Bool :=
  c.isAlphanum ∨ c = '_' ∨ c = '-'

/-- `PythonPlugin.parseRequiresDist`: split off environment markers at `;`,
skip optional extras and platform-gated edges, extract the
`^([a-zA-Z0-9_-]+)\s*(.*)$` match, skip namespace names and extras brackets,
strip parentheses, and default an empty spec to `*`. -/
def pyParseRequiresDist (reqDist : String) : Option Dep :=
  let parts := jsSplitOnChar ';' reqDist
  let packageSpec := jsTrim (parts.headD "")
  let markers := jsToLower (jsTrim (jsJoin ";" (parts.drop 1)))
  if jsIncludes markers "extra ==" ∨ jsIncludes markers "extra==" then none
  else if jsIncludes markers "platform_" ∨ jsIncludes markers "sys_platform" then none
  else
    let nameChars := packageSpec.toList.takeWhile isPyNameChar
    if nameChars.isEmpty then none
    else
      let name : String := ⟨nameChars⟩
      let afterName := (packageSpec.toList.dropWhile isPyNameChar).dropWhile isJsSpace
      let versionSpec0 := jsTrim ⟨afterName⟩
      if jsContainsChar name '.' then none
      else
        let versionSpec1 := jsTrim ⟨versionSpec0.toList.filter
          (fun c => ¬(c = '(' ∨ c = ')'))⟩
        if jsIncludes packageSpec "[" then none
        else
          some { name := name
                 versionRange := if versionSpec1 = "" then "*" else versionSpec1
                 scope := .production }

/-- `PythonPlugin.fetchPackageInfo`: registry lookup (any HTTP failure is
caught and becomes `null` / `none`), then `findBestVersion` over
`Object.keys(releases)`; returns the package with the selected version. -/
def pyFetchPackageInfo (reg : List (String × PyPkg)) (name versionRange : String) :
    Option (PyPkg × String) :=
  match jsMapGet reg name with
  | none => none
  | some pkg =>
      match findBestVersion (jsMapKeys pkg.releases) versionRange with
      | none => none
      | some bestVersion => some (pkg, bestVersion)

/-- `PythonPlugin.getBestDownloadUrl`: prefer a wheel, then an sdist, else a
constructed URL. -/
def getBestDownloadUrl (pkg : PyPkg) (version : String) (registry : String) : String :=
  let releases := (jsMapGet pkg.releases version).getD []
  match releases.find? (fun r => r.packagetype = "bdist_wheel") with
  | some wheel => wheel.url
  | none =>
      match releases.find? (fun r => r.packagetype = "sdist") with
      | some sdist => sdist.url
      | none =>
          registry ++ "/packages/" ++ pkg.name ++ "/" ++ version ++ "/" ++
            pkg.name ++ "-" ++ version ++ ".tar.gz"

/-- `PythonPlugin.resolveDirectDependency`: key `name@versionRange`, skip if
already in the graph, swallow every per-edge failure, insert the node before
recursing into the parsed `requires_dist` children (the
`for (const childDep of dependencies)` loop is the fold).  The source has no
depth guard here; `fuel` makes the embedding total, and any fuel that exceeds
the recursion actually performed computes what the source does. -/
def pyResolveDirect (reg : List (String × PyPkg)) (registry : String) :
    Nat → Dep → List (String × GraphNode) → List (String × GraphNode)
  | 0, _, nodes => nodes
  | fuel + 1, dep, nodes =>
      let fullKey := dep.name ++ "@" ++ dep.versionRange
      if jsMapHas nodes fullKey then nodes
      else
        match pyFetchPackageInfo reg dep.name dep.versionRange with
        | none => nodes
        | some (pkg, version) =>
            let downloadUrl := getBestDownloadUrl pkg version registry
            let dependencies := pkg.requiresDist.filterMap pyParseRequiresDist
            let resolvedPackage : ResolvedPackage :=
              { name := pkg.name
                version := version
                registry := registry
                downloadUrl := downloadUrl
                integrity := none
                dependencies := dependencies }
            let nodes1 := jsMapSet nodes fullKey
              { pkg := resolvedPackage
                dependencies := dependencies.map (fun d => d.name ++ "@" ++ d.versionRange)
                dependents := [] }
            dependencies.foldl (fun acc childDep => pyResolveDirect reg registry fuel childDep acc)
              nodes1

/-- `PythonPlugin.resolveDependencies`: iterates only the manifest's
(production) `dependencies` list, resolving each via
`resolveDirectDependency`. -/
def pyResolveDependencies (reg : List (String × PyPkg)) (registry : String)
    (manifest : Manifest) (fuel : Nat) : DependencyGraph :=
  { root := manifest.name
    nodes := manifest.dependencies.foldl
      (fun acc dep => pyResolveDirect reg registry fuel dep acc) [] }

/-! ## Package cache: `downloadPackages` of both adapters

The on-disk cache is an association list `path → file content`.  A network
transfer is an oracle: either the full content arrives and the stream `finish`
event fires, or the transfer is interrupted after writing some truncated
content and the stream errors.  Both adapters open the write stream directly
on the final cache path. -/

/-- Outcome of one network transfer for a URL. -/
inductive NetOutcome where
  | ok (content : String)
  | interrupted (truncated : String)
deriving DecidableEq, Repr

/-- One `packages.map(async pkg => ...)` body, common to both adapters: check
the cache path, else stream the response straight into the cache path.
Returns the file system, whether the network was used, and the settled
promise (`.error` = rejected). -/
def downloadStep (net : String → NetOutcome) (fs : List (String × String))
    (cachePath url : String) : List (String × String) × Bool × Except String String :=
  if jsMapHas fs cachePath then
    (fs, false, .ok cachePath)
  else
    match net url with
    | .ok content => (jsMapSet fs cachePath content, true, .ok cachePath)
    | .interrupted truncated =>
        (jsMapSet fs cachePath truncated, true, .error ("Failed to download " ++ url))

/-- `pkg.name.replace(/[@\/]/g, '-')` in `NodePlugin.downloadPackages`. -/
def nodeSafeName (name : String) : String :=
  jsMapChars (fun c => if c = '@' ∨ c = '/' then '-' else c) name

/-- The Node cache path for a resolved package:
`<cacheDir>/node/<safeName>-<version>.tgz`. -/
def nodeCachePath (cacheDir : String) (pkg : ResolvedPackage) : String :=
  cacheDir ++ "/node/" ++ nodeSafeName pkg.name ++ "-" ++ pkg.version ++ ".tgz"

/-- The whole `packages.map(...)` / `Promise.all` batch, shared by both
adapters (their loop bodies are identical apart from the cache-path
computation): one download per package, order-preserving results.  The
concurrent tasks' effects are sequenced here in list order; cache entries are
only ever added, never removed, so a pre-existing entry is seen by its task
under any interleaving. -/
def downloadBatch (net : String → NetOutcome) (pathOf : ResolvedPackage → String)
    (pkgs : List ResolvedPackage) (fs : List (String × String)) :
    List (String × String) × List (Bool × Except String String) :=
  match pkgs with
  | [] => (fs, [])
  | pkg :: rest =>
      let step := downloadStep net fs (pathOf pkg) pkg.downloadUrl
      let restResult := downloadBatch net pathOf rest step.1
      (restResult.1, step.2 :: restResult.2)

/-- `NodePlugin.downloadPackages`. -/
def nodeDownloadPackages (net : String → NetOutcome) (cacheDir : String)
    (pkgs : List ResolvedPackage) (fs : List (String × String)) :
    List (String × String) × List (Bool × Except String String) :=
  downloadBatch net (nodeCachePath cacheDir) pkgs fs

/-- `pkg.name.replace(/[^a-zA-Z0-9_-]/g, '-')` in
`PythonPlugin.downloadPackages`. -/
def pySafeName (name : String) : String :=
  jsMapChars (fun c => if isPyNameChar c then c else '-') name

/-- The Python cache path:
`<cacheDir>/python/<safeName>-<version>(.whl|.tar.gz)`. -/
def pyCachePath (cacheDir : String) (pkg : ResolvedPackage) : String :=
  let ext := if jsEndsWith pkg.downloadUrl ".whl" then ".whl" else ".tar.gz"
  cacheDir ++ "/python/" ++ pySafeName pkg.name ++ "-" ++ pkg.version ++ ext

/-- `PythonPlugin.downloadPackages`. -/
def pyDownloadPackages (net : String → NetOutcome) (cacheDir : String)
    (pkgs : List ResolvedPackage) (fs : List (String × String)) :
    List (String × String) × List (Bool × Except String String) :=
  downloadBatch net (pyCachePath cacheDir) pkgs fs

/-! ## Install: `installPackages` of both adapters

Tar/zip extraction is abstracted: a Node artifact is what the extracted
tarball exposes to `installPackages` (its `package.json` name and version, if
present), and the install target is the `node_modules` layout as a map
`package directory → installed package.json (name, version)`.  A Python
artifact exposes its file name, its parsed metadata, the top-level items a
wheel extraction yields, and whether an sdist extraction contains the package
directory; `site-packages` is the list of entries present there. -/

/-- An extracted Node tarball, as `installPackages` observes it. -/
structure NodeArtifact where
  pkgJson : Option (String × String)
deriving DecidableEq, Repr

/-- The package directory for a (possibly scoped) package name, from
`NodePlugin.installPackages`. -/
def nodePackageDir (name : String) : String :=
  if jsStartsWith name "@" then
    let parts := jsSplitOnChar '/' name
    "node_modules/" ++ parts.headD "" ++ "/" ++ (parts.drop 1).headD ""
  else
    "node_modules/" ++ name

/-- `NodePlugin.installPackages`: per artifact, read the extracted
`package.json`; skip when the target directory already holds the same
(name, version); otherwise copy and record.  The third component counts the
artifact copies performed. -/
def nodeInstallPackages (arts : List NodeArtifact)
    (tgt : List (String × (String × String))) :
    List (String × (String × String)) × InstallResult × Nat :=
  match arts with
  | [] => (tgt, { installed := [], updated := [], removed := [], errors := [] }, 0)
  | art :: rest =>
      match art.pkgJson with
      | none =>
          -- no package.json in the extracted tarball: nothing recorded
          nodeInstallPackages rest tgt
      | some (name, version) =>
          let dir := nodePackageDir name
          let skip : Bool :=
            match jsMapGet tgt dir with
            | some existing => existing.1 = name && existing.2 = version
            | none => false
          if skip then
            nodeInstallPackages rest tgt
          else
            let tgt1 := jsMapSet tgt dir (name, version)
            let restResult := nodeInstallPackages rest tgt1
            (restResult.1,
             { restResult.2.1 with installed := (name, version) :: restResult.2.1.installed },
             restResult.2.2 + 1)

/-- An extracted Python artifact, as `installPackages` observes it. -/
structure PyArtifact where
  fileName : String
  meta : Option (String × String)
  entries : List String
  hasPkgDir : Bool
deriving DecidableEq, Repr

/-- `PythonPlugin.extractPackageNameFromFile`: the regex
`^([a-zA-Z0-9_-]+)-` — the leading name-character run cut at its last `-`
(greedy match with backtracking); the whole file name when there is no
match. -/
def extractPackageNameFromFile (fileName : String) : String :=
  let run := fileName.toList.takeWhile isPyNameChar
  if run.contains '-' then
    ⟨run.take (run.length - 1 - run.reverse.indexOf '-')⟩
  else
    fileName

/-- The `.dist-info` marker directory name checked by
`PythonPlugin.installPackages`: the package name with every dash replaced by
an underscore, then `-<version>.dist-info`. -/
def pyDistInfoName (name version : String) : String :=
  jsMapChars (fun c => if c = '-' then '_' else c) name ++ "-" ++ version ++ ".dist-info"

/-- Add an entry to `site-packages` (copy with overwrite). -/
def siteAdd (site : List String) (entry : String) : List String :=
  if site.contains entry then site else site ++ [entry]

/-- `PythonPlugin.installPackages`: reject unsupported formats, read the
extracted metadata, skip when the `.dist-info` marker for (name, version) is
already present; otherwise copy (a wheel's top-level items, or an sdist's
package directory when present) and record.  The third component counts the
artifact copies performed. -/
def pyInstallPackages (arts : List PyArtifact) (site : List String) :
    List String × InstallResult × Nat :=
  match arts with
  | [] => (site, { installed := [], updated := [], removed := [], errors := [] }, 0)
  | art :: rest =>
      let isWheel := jsEndsWith art.fileName ".whl"
      let isTarGz := jsEndsWith art.fileName ".tar.gz"
      if ¬isWheel ∧ ¬isTarGz then
        let restResult := pyInstallPackages rest site
        (restResult.1,
         { restResult.2.1 with errors :=
            { pkg := extractPackageNameFromFile art.fileName
              error := "Unsupported package format: " ++ art.fileName
              fatal := false } :: restResult.2.1.errors },
         restResult.2.2)
      else
        match art.meta with
        | none =>
            let restResult := pyInstallPackages rest site
            (restResult.1,
             { restResult.2.1 with errors :=
                { pkg := extractPackageNameFromFile art.fileName
                  error := "Could not find package metadata (METADATA or PKG-INFO)"
                  fatal := false } :: restResult.2.1.errors },
             restResult.2.2)
        | some (name, version) =>
            if site.contains (pyDistInfoName name version) then
              pyInstallPackages rest site
            else
              let site1 :=
                if isWheel then
                  art.entries.foldl siteAdd site
                else
                  if art.hasPkgDir then siteAdd site name else site
              let restResult := pyInstallPackages rest site1
              (restResult.1,
               { restResult.2.1 with installed := (name, version) :: restResult.2.1.installed },
               restResult.2.2 + 1)

/-! ## Lock model and orchestrator -/

/-- `LockFileEntry` from `types.ts`. -/
structure LockEntry where
  version : String
  resolved : String
  integrity : Option String
  dependencies : Option (List (String × String))
deriving DecidableEq, Repr

/-- A lock file: format version plus `package name → entry`. -/
structure LockFile where
  version : String
  packages : List (String × LockEntry)
deriving DecidableEq, Repr

/-- `NodePlugin.createLockFile` (the pure lock construction; writing to disk
is outside the model): one entry per graph node, child versions looked up in
the graph with `depNode?.package.version || '*'`. -/
def nodeCreateLockFile (graph : DependencyGraph) : LockFile :=
  { version := "3.0.0"
    packages := graph.nodes.map (fun p =>
      (p.1,
       { version := p.2.pkg.version
         resolved := p.2.pkg.downloadUrl
         integrity := p.2.pkg.integrity
         dependencies :=
           if p.2.dependencies.length > 0 then
             some (p.2.dependencies.map (fun dep =>
               (dep,
                match jsMapGet graph.nodes dep with
                | some depNode => if depNode.pkg.version = "" then "*" else depNode.pkg.version
                | none => "*")))
           else none })) }

/-- The scope-narrowing step of `ForgeCore.install`: when specific package
names are requested, a fresh manifest is built containing exactly those names
with the wildcard range (scope `development` when `saveDev` is set), and the
other dependency lists empty; otherwise the parsed manifest is used
unchanged. -/
def buildTargetManifest (manifest : Manifest) (packages : List String)
    (saveDev : Bool) : Manifest :=
  if packages.isEmpty then manifest
  else
    { name := manifest.name
      version := manifest.version
      description := manifest.description
      dependencies := packages.map (fun packageName =>
        { name := packageName
          versionRange := "*"
          scope := if saveDev then .development else .production })
      devDependencies := []
      peerDependencies := []
      optionalDependencies := [] }

/-! ## Concrete fixtures

Small registries and manifests used to exercise the embedding on the
scenarios named by the specification. -/

/-- A registry oracle with the synthetic cycle `A → B → A` (same constraint on
both edges, so the two occurrences of `A` share one resolution key). -/
def fetchCycle : String → String → Option VersionInfo
  | "A", "*" => some { name := "A", version := "1.0.0", dependencies := [("B", "*")], tarball := "urlA" }
  | "B", "*" => some { name := "B", version := "1.0.0", dependencies := [("A", "*")], tarball := "urlB" }
  | _, _ => none

/-- A root manifest declaring the single production dependency `A@*`. -/
def manifestCycle : Manifest :=
  { name := "root", version := "1.0.0"
    dependencies := [{ name := "A", versionRange := "*" }]
    devDependencies := [], peerDependencies := [], optionalDependencies := [] }

/-- A registry oracle where `A` resolves to a different concrete version under
each of two different constraints. -/
def fetchTwoConstraints : String → String → Option VersionInfo
  | "A", "1.0.0" => some { name := "A", version := "1.0.0", dependencies := [], tarball := "u1" }
  | "A", "2.0.0" => some { name := "A", version := "2.0.0", dependencies := [], tarball := "u2" }
  | _, _ => none

/-- A manifest requesting the same package name under two different
constraints. -/
def manifestTwoConstraints : Manifest :=
  { name := "root", version := "1.0.0"
    dependencies := [{ name := "A", versionRange := "1.0.0" },
                     { name := "A", versionRange := "2.0.0" }]
    devDependencies := [], peerDependencies := [], optionalDependencies := [] }

/-- A PyPI registry where `a` is published in two versions and has no
dependencies. -/
def pyRegTwoVersions : List (String × PyPkg) :=
  [("a", { name := "a", requiresDist := []
           releases := [("1.0.0", []), ("2.0.0", [])] })]

/-- A Python manifest requesting `a` under two different exact constraints. -/
def pyManifestTwoConstraints : Manifest :=
  { name := "proj", version := "1.0.0"
    dependencies := [{ name := "a", versionRange := "==1.0.0" },
                     { name := "a", versionRange := "==2.0.0" }]
    devDependencies := [], peerDependencies := [], optionalDependencies := [] }

/-- A registry oracle where the direct dependency `A` resolves but its own
dependency `B` is missing from the registry. -/
def fetchMissingChild : String → String → Option VersionInfo
  | "A", "*" => some { name := "A", version := "1.0.0", dependencies := [("B", "*")], tarball := "urlA" }
  | _, _ => none

/-- A PyPI registry containing only `b`; the name `a` is unknown. -/
def pyRegMissingA : List (String × PyPkg) :=
  [("b", { name := "b", requiresDist := [], releases := [("1.0.0", [])] })]

/-- A Python manifest whose first direct dependency (`a`) cannot be resolved
while the second (`b`) can. -/
def pyManifestMissingA : Manifest :=
  { name := "proj", version := "1.0.0"
    dependencies := [{ name := "a", versionRange := "*" },
                     { name := "b", versionRange := "*" }]
    devDependencies := [], peerDependencies := [], optionalDependencies := [] }

/-- A PyPI registry where the direct dependency `a` lists `b` in its
`requires_dist`, and `b` exists with no dependencies of its own. -/
def pyRegTransitive : List (String × PyPkg) :=
  [("a", { name := "a", requiresDist := ["b"], releases := [("1.0.0", [])] }),
   ("b", { name := "b", requiresDist := [], releases := [("1.0.0", [])] })]

/-- A Python manifest declaring the single direct dependency `a@*`. -/
def pyManifestDirect : Manifest :=
  { name := "proj", version := "1.0.0"
    dependencies := [{ name := "a", versionRange := "*" }]
    devDependencies := [], peerDependencies := [], optionalDependencies := [] }

/-- The resolved package used in the cache-behavior scenarios. -/
def pkgA : ResolvedPackage :=
  { name := "A", version := "1.0.0", registry := "https://registry.npmjs.org"
    downloadUrl := "https://registry.npmjs.org/A/-/A-1.0.0.tgz"
    integrity := none, dependencies := [] }

/-- A network where every transfer is interrupted after writing truncated
bytes. -/
def netInterrupted : String → NetOutcome := fun _ => .interrupted "TRUNCATED-BYTES"

/-- A network where every transfer succeeds. -/
def netFine : String → NetOutcome := fun _ => .ok "COMPLETE-ARTIFACT"

/-- An extracted Python source distribution for `foo@1.0.0` (an sdist carries
no `.dist-info` directory; its copy step copies the package directory). -/
def sdistFoo : PyArtifact :=
  { fileName := "foo-1.0.0.tar.gz", meta := some ("foo", "1.0.0")
    entries := [], hasPkgDir := true }

/-- An extracted wheel for `bar@2.0.0`, whose top-level items include its
`.dist-info` directory. -/
def wheelBar : PyArtifact :=
  { fileName := "bar-2.0.0-py3-none-any.whl", meta := some ("bar", "2.0.0")
    entries := ["bar", "bar-2.0.0.dist-info"], hasPkgDir := false }

/-- An extracted Node tarball for `lodash@4.17.21`. -/
def tarLodash : NodeArtifact := { pkgJson := some ("lodash", "4.17.21") }

/-- A registry oracle for the scope-narrowing scenario: `X` depends on `W`;
`Y` and `Z` exist and are declared by the project manifest. -/
def fetchScope : String → String → Option VersionInfo
  | "X", "*" => some { name := "X", version := "1.0.0", dependencies := [("W", "*")], tarball := "uX" }
  | "W", "*" => some { name := "W", version := "1.0.0", dependencies := [], tarball := "uW" }
  | "Y", "^1.0.0" => some { name := "Y", version := "1.2.0", dependencies := [], tarball := "uY" }
  | "Z", "^1.0.0" => some { name := "Z", version := "1.3.0", dependencies := [], tarball := "uZ" }
  | _, _ => none

/-- A project manifest declaring `Y` and `Z` (the packages that must *not* be
installed when only `X` is requested). -/
def manifestYZ : Manifest :=
  { name := "proj", version := "1.0.0"
    dependencies := [{ name := "Y", versionRange := "^1.0.0" },
                     { name := "Z", versionRange := "^1.0.0" }]
    devDependencies := [], peerDependencies := [], optionalDependencies := [] }

/-- A manifest that declares only a peer dependency (on `Y`, which the
registry could resolve if asked). -/
def manifestPeerOnly : Manifest :=
  { name := "proj", version := "1.0.0"
    dependencies := [], devDependencies := []
    peerDependencies := [{ name := "Y", versionRange := "^1.0.0" }]
    optionalDependencies := [] }

/-! ## Theorems -/

/-- C1, counterexample.  The claim says that when a resolution key reappears
while it is in the in-progress (`resolving`) set, the cycle is recorded and
recursion on that edge stops without aborting the resolution.  In the code
(`node-plugin.ts` line 483) that branch instead throws
`Circular dependency detected`, an error nothing catches: at a state whose
in-progress set holds `A@*`, re-entering `resolveDependency` for `A@*`
returns the error (aborting the resolution that reached it) instead of
recording the cycle and continuing. -/
theorem c1_in_progress_key_throws :
    resolveDependency fetchCycle "reg" 102 { name := "A", versionRange := "*" }
      { nodes := [], visited := [], resolving := ["A@*"] } 0 =
    .error "Circular dependency detected: A@*" := by decide

/-- C1, amended.  A key found in the in-progress set makes `resolveDependency`
throw a circular-dependency error that propagates (first conjunct).  However,
a key is added to `visited` before its children are expanded, so a genuine
cycle re-encounters the key in `visited` and recursion stops there silently:
the synthetic cycle `A → B → A` under the deep policy terminates without any
error, and `A` and `B` each appear exactly once in the resulting graph
(second conjunct). -/
theorem c1_cycle_terminates_each_once :
    (resolveDependency fetchCycle "reg" 102 { name := "A", versionRange := "*" }
        { nodes := [], visited := [], resolving := ["A@*"] } 0).isOk = false ∧
    (nodeResolveDependencies fetchCycle "reg" manifestCycle).map
      (fun g => jsMapKeys g.nodes) = .ok ["A", "B"] := by decide

/-- C2, counterexample.  The claim says every graph node is mapped under the
resolution key `name@requested-constraint`, so two dependencies on the same
name with different constraints occupy two distinct entries.  The Node
adapter instead inserts nodes under the bare package name
(`graph.nodes.set(resolvedPackage.name, node)`): resolving `A@1.0.0` and
`A@2.0.0` produces a single graph entry keyed `"A"` (holding the
last-resolved version), not two entries keyed by `name@constraint`. -/
theorem c2_node_graph_keyed_by_bare_name :
    (nodeResolveDependencies fetchTwoConstraints "reg" manifestTwoConstraints).map
      (fun g => jsMapKeys g.nodes) = .ok ["A"] := by decide

/-- C2, amended.  The Python adapter maps each node under
`name@requested-constraint`, so two constraints on the same name occupy two
distinct entries (first two conjuncts: both keys are present, resolved to
their respective versions).  The Node adapter keys its `visited` set by
`name@constraint` but stores graph nodes under the bare package name, so the
same two-constraint scenario collapses to one entry holding the last-resolved
version (third conjunct). -/
theorem c2_resolution_keying :
    (jsMapKeys (pyResolveDependencies pyRegTwoVersions "https://pypi.org"
        pyManifestTwoConstraints 10).nodes = ["a@==1.0.0", "a@==2.0.0"]) ∧
    ((pyResolveDependencies pyRegTwoVersions "https://pypi.org"
        pyManifestTwoConstraints 10).nodes.map (fun p => p.2.pkg.version) =
      ["1.0.0", "2.0.0"]) ∧
    (nodeResolveDependencies fetchTwoConstraints "reg" manifestTwoConstraints).map
      (fun g => (jsMapKeys g.nodes, g.nodes.map (fun p => p.2.pkg.version))) =
      .ok (["A"], ["2.0.0"]) := by decide

/-- C3, counterexample.  The claim says selection never returns a version that
violates the constraint and that `{1.0.0, 1.2.0, 2.0.0}` under
`">=1.0.0, <2.0.0"` selects `1.2.0`.  The Python adapter's
`findBestVersion` only parses the `>=` head of a compound constraint (the
rest is garbled into the minimum by `parseInt`), ignores the `<2.0.0` upper
bound, and selects `2.0.0`. -/
theorem c3_compound_range_upper_bound_ignored :
    findBestVersion ["1.0.0", "1.2.0", "2.0.0"] ">=1.0.0, <2.0.0" = some "2.0.0" ∧
    findBestVersion ["1.0.0", "1.2.0", "2.0.0"] ">=1.0.0, <2.0.0" ≠ some "1.2.0" := by
  decide

/-- C3, amended.  `findBestVersion` selects the highest available version for
the wildcard (`2.0.0` in the example, as the claim says), the exact version
for `==` when available (and `none` otherwise), and the highest version not
below the minimum for a pure `>=` constraint (and `none` when no version
reaches it); but a compound constraint such as `">=1.0.0, <2.0.0"` is not
parsed — the upper bound is ignored — so it selects `2.0.0`, which violates
`<2.0.0`, instead of the claim's `1.2.0`.  (Node-side selection delegates to
the external `semver.maxSatisfying` library and is not modelled.) -/
theorem c3_findBestVersion_branches :
    findBestVersion ["1.0.0", "1.2.0", "2.0.0"] "*" = some "2.0.0" ∧
    findBestVersion ["1.0.0", "1.2.0", "2.0.0"] "==1.2.0" = some "1.2.0" ∧
    findBestVersion ["1.0.0", "1.2.0", "2.0.0"] "==3.0.0" = none ∧
    findBestVersion ["1.0.0", "1.2.0", "2.0.0"] ">=1.2.0" = some "2.0.0" ∧
    findBestVersion ["1.0.0", "1.2.0", "2.0.0"] ">=2.5.0" = none ∧
    findBestVersion ["1.0.0", "1.2.0", "2.0.0"] ">=1.0.0, <2.0.0" = some "2.0.0" := by
  decide

/-- C6, counterexample.  The claim says the Python adapter resolves only the
directly declared dependencies and never recurses, so the graph holds at most
one node per declared direct dependency.  The current
`resolveDirectDependency` recurses into the parsed `requires_dist` of each
resolved package: one declared dependency (`a`, whose metadata lists `b`)
yields a two-node graph. -/
theorem c6_python_recurses :
    jsMapKeys (pyResolveDependencies pyRegTransitive "https://pypi.org"
      pyManifestDirect 10).nodes = ["a@*", "b@*"] ∧
    pyManifestDirect.dependencies.length = 1 := by decide

/-- C6, amended.  The Python adapter's `resolveDependencies` recursively
resolves the parsed `requires_dist` dependencies of each package it resolves
(deduplicating by resolution key), so the graph can contain transitive nodes
beyond the declared direct dependencies: resolving the single declared
dependency `a` also creates a full node for its transitive dependency `b`,
keyed `b@*`. -/
theorem c6_python_transitive_node :
    jsMapGet (pyResolveDependencies pyRegTransitive "https://pypi.org"
      pyManifestDirect 10).nodes "b@*" =
    some { pkg := { name := "b", version := "1.0.0", registry := "https://pypi.org"
                    downloadUrl := "https://pypi.org/packages/b/1.0.0/b-1.0.0.tar.gz"
                    integrity := none, dependencies := [] }
           dependencies := [], dependents := [] } := by decide

/-- C4, counterexample.  The claim says a failing dependency edge is recorded
as a diagnostic and resolution continues, aborting only when the failing edge
is a direct dependency of the root.  In the Node adapter nothing catches the
error thrown by `resolveDependency`: here the root's direct dependency `A`
resolves fine, its transitive dependency `B` is missing, and the entire
resolution aborts with the thrown error rather than recording a diagnostic
and continuing. -/
theorem c4_transitive_edge_failure_aborts :
    nodeResolveDependencies fetchMissingChild "reg" manifestCycle =
      .error "Package B@* not found" := by decide

/-- C4, amended.  In the Node adapter any edge failure — transitive (first
conjunct) or direct (second conjunct) — propagates out of
`resolveDependencies` and aborts the whole resolution.  In the Python
adapter, per-edge failures are swallowed (only logged) and resolution of the
remaining edges continues even when the failing edge is a direct dependency
of the root: with direct dependencies `a` (unresolvable) and `b`, the
resulting graph holds exactly `b` (third conjunct). -/
theorem c4_edge_failure_behavior :
    nodeResolveDependencies fetchMissingChild "reg" manifestCycle =
      .error "Package B@* not found" ∧
    nodeResolveDependencies fetchMissingChild "reg"
      { name := "root", version := "1.0.0"
        dependencies := [{ name := "C", versionRange := "*" }]
        devDependencies := [], peerDependencies := [], optionalDependencies := [] } =
      .error "Package C@* not found" ∧
    jsMapKeys (pyResolveDependencies pyRegMissingA "https://pypi.org"
      pyManifestMissingA 10).nodes = ["b@*"] := by decide

/-- C10.  The Node adapter's `resolveDependencies` expands exactly the
concatenation of the production, development and optional dependency lists:
the peer-dependency list is never read (first conjunct: the result is
invariant under replacing it by anything), the resolution of a manifest
equals the resolution of the manifest whose production list is that
concatenation with the other lists empty (second conjunct), the lock snapshot
built from the graph is likewise peer-invariant (third conjunct), and a
manifest declaring only a peer dependency — which the registry could resolve
— produces the empty graph, so nothing is fetched, installed or locked for it
(fourth conjunct). -/
theorem c10_peer_dependencies_never_resolved :
    (∀ (fetch : String → String → Option VersionInfo) (registry : String)
        (m : Manifest) (ps : List Dep),
      nodeResolveDependencies fetch registry { m with peerDependencies := ps } =
        nodeResolveDependencies fetch registry m) ∧
    (∀ (fetch : String → String → Option VersionInfo) (registry : String) (m : Manifest),
      nodeResolveDependencies fetch registry m =
        nodeResolveDependencies fetch registry
          { m with
            dependencies := m.dependencies ++ m.devDependencies ++ m.optionalDependencies
            devDependencies := [], peerDependencies := [], optionalDependencies := [] }) ∧
    (∀ (fetch : String → String → Option VersionInfo) (registry : String)
        (m : Manifest) (ps : List Dep),
      (nodeResolveDependencies fetch registry { m with peerDependencies := ps }).map
          nodeCreateLockFile =
        (nodeResolveDependencies fetch registry m).map nodeCreateLockFile) ∧
    nodeResolveDependencies fetchScope "reg" manifestPeerOnly =
      .ok { root := "proj", nodes := [] } := by
  refine ⟨fun fetch registry m ps => ?_, fun fetch registry m => ?_,
    fun fetch registry m ps => ?_, by decide⟩
  · simp [nodeResolveDependencies]
  · simp [nodeResolveDependencies]
  · simp [nodeResolveDependencies]

/-- C9.  When specific packages are requested, `ForgeCore.install` builds a
fresh manifest holding exactly the requested names with the wildcard
constraint (scope `development` when the dev flag is set, else `production`)
and empty development/peer/optional lists — the original manifest's declared
dependencies are excluded (first conjunct).  Resolving that narrowed manifest
against a registry where `X` depends on `W` while the project manifest
declares `Y` and `Z` yields a graph holding exactly `X`'s closure
`{X, W}`; `Y` and `Z` are absent (second conjunct). -/
theorem c9_scope_narrowing (m : Manifest) (packages : List String) (saveDev : Bool)
    (h : packages ≠ []) :
    ((buildTargetManifest m packages saveDev).dependencies =
        packages.map (fun packageName =>
          { name := packageName, versionRange := "*"
            scope := if saveDev then Scope.development else Scope.production }) ∧
      (buildTargetManifest m packages saveDev).devDependencies = [] ∧
      (buildTargetManifest m packages saveDev).peerDependencies = [] ∧
      (buildTargetManifest m packages saveDev).optionalDependencies = []) ∧
    (nodeResolveDependencies fetchScope "reg"
        (buildTargetManifest manifestYZ ["X"] false)).map
      (fun g => jsMapKeys g.nodes) = .ok ["X", "W"] := by
  refine ⟨?_, by decide⟩
  cases packages with
  | nil => exact absurd rfl h
  | cons p ps => simp [buildTargetManifest]

/-- C9, witness: the theorem applied to the concrete `Y`/`Z`-declaring
manifest with `["X"]` requested. -/
theorem c9_scope_narrowing_witness :
    (["X"] : List String) ≠ [] ∧
    (buildTargetManifest manifestYZ ["X"] false).devDependencies = [] :=
  ⟨by decide, ((c9_scope_narrowing manifestYZ ["X"] false (by decide)).1).2.1⟩

/-! ### Map and site-packages lemmas -/

theorem find?_jsMapSet_self (m : List (String × α)) (k : String) (v : α) :
    (jsMapSet m k v).find? (fun p => p.1 = k) = some (k, v) := by
  induction m with
  | nil => simp [jsMapSet]
  | cons e m ih =>
    by_cases he : e.1 = k
    · simp [jsMapSet, he]
    · by_cases hm : m.any (fun p => decide (p.1 = k)) <;>
        simp [jsMapSet, he, hm] at ih ⊢ <;> exact ih

theorem jsMapGet_set_self (m : List (String × α)) (k : String) (v : α) :
    jsMapGet (jsMapSet m k v) k = some v := by
  simp [jsMapGet, find?_jsMapSet_self]

theorem jsMapHas_set_self (m : List (String × α)) (k : String) (v : α) :
    jsMapHas (jsMapSet m k v) k = true := by
  have h := find?_jsMapSet_self m k v
  have : ((jsMapSet m k v).find? (fun p => p.1 = k)).isSome := by rw [h]; rfl
  rcases List.find?_isSome.mp this with ⟨x, hx, hpx⟩
  exact List.any_eq_true.mpr ⟨x, hx, hpx⟩

theorem jsMapKeys_set (m : List (String × α)) (k : String) (v : α) :
    jsMapKeys (jsMapSet m k v) =
      if m.any (fun p => p.1 = k) then jsMapKeys m else jsMapKeys m ++ [k] := by
  by_cases hm : m.any (fun p => decide (p.1 = k))
  · simp only [jsMapSet, jsMapKeys, hm, if_true, List.map_map]
    exact List.map_congr_left (fun p _ => by by_cases h : p.1 = k <;> simp [h])
  · simp [jsMapSet, jsMapKeys, hm]

theorem jsMapHas_keys (m : List (String × α)) (p : String) :
    jsMapHas m p = (jsMapKeys m).any (fun x => x = p) := by
  induction m with
  | nil => rfl
  | cons e m ih => simp [jsMapHas, jsMapKeys] at ih ⊢; rw [ih]

theorem jsMapHas_set_mono (m : List (String × α)) (k p : String) (v : α)
    (h : jsMapHas m p = true) : jsMapHas (jsMapSet m k v) p = true := by
  rw [jsMapHas_keys] at h ⊢
  rw [jsMapKeys_set]
  by_cases hm : m.any (fun q => decide (q.1 = k)) <;> simp [hm, h]

theorem downloadStep_has_mono (net : String → NetOutcome) (fs : List (String × String))
    (q u p : String) (h : jsMapHas fs p = true) :
    jsMapHas (downloadStep net fs q u).1 p = true := by
  unfold downloadStep
  by_cases hq : jsMapHas fs q
  · simpa [hq]
  · cases hu : net u <;> simp [hq, hu, jsMapHas_set_mono, h]

theorem mem_siteAdd_self (site : List String) (e : String) : e ∈ siteAdd site e := by
  by_cases h : e ∈ site <;> simp [siteAdd, h]

theorem mem_siteAdd_mono (site : List String) (e x : String) (h : x ∈ site) :
    x ∈ siteAdd site e := by
  by_cases hc : e ∈ site <;> simp [siteAdd, hc, h]

theorem mem_foldl_siteAdd_mono (entries : List String) :
    ∀ (site : List String) (x : String), x ∈ site → x ∈ entries.foldl siteAdd site := by
  induction entries with
  | nil => intro site x h; simpa using h
  | cons e rest ih =>
      intro site x h
      exact ih (siteAdd site e) x (mem_siteAdd_mono site e x h)

theorem mem_foldl_siteAdd_of_mem (entries : List String) :
    ∀ (site : List String) (x : String), x ∈ entries → x ∈ entries.foldl siteAdd site := by
  induction entries with
  | nil => intro site x h; cases h
  | cons e rest ih =>
      intro site x h
      rcases List.mem_cons.mp h with rfl | hx
      · exact mem_foldl_siteAdd_mono rest (siteAdd site x) x (mem_siteAdd_self site x)
      · exact ih (siteAdd site e) x hx

theorem exceptFoldlM_congr {α β : Type} (f g : β → α → Except String β) (l : List α)
    (h : ∀ b a, f b a = g b a) : ∀ i, l.foldlM f i = l.foldlM g i := by
  induction l with
  | nil => intro i; rfl
  | cons x xs ih =>
      intro i
      simp only [List.foldlM_cons, h]
      cases g i x <;> simp [Except.bind, ih]

/-- The structural `fuel` of `resolveDependency` is inert: any two fuels that
dominate `102 - depth` (in particular the `102` used at depth 0) compute the
same result, because the source's own `depth > 100` guard returns before the
fuel can run out. -/
theorem resolveDependency_fuel_irrelevant (fetch : String → String → Option VersionInfo)
    (registry : String) :
    ∀ (fuel₁ fuel₂ : Nat) (dep : Dep) (st : NodeResolveState) (depth : Nat),
      102 - depth ≤ fuel₁ → 102 - depth ≤ fuel₂ →
      resolveDependency fetch registry fuel₁ dep st depth =
        resolveDependency fetch registry fuel₂ dep st depth := by
  intro fuel₁
  induction fuel₁ with
  | zero =>
      intro fuel₂ dep st depth h1 h2
      have hd : depth > 100 := by omega
      cases fuel₂ <;> simp [resolveDependency, hd]
  | succ f1 ih =>
      intro fuel₂ dep st depth h1 h2
      by_cases hd : depth > 100
      · cases fuel₂ <;> simp [resolveDependency, hd]
      · cases fuel₂ with
        | zero => omega
        | succ f2 =>
            simp only [resolveDependency]
            by_cases hv : dep.name ++ "@" ++ dep.versionRange ∈ st.visited ∨ 100 < depth
            · simp [hv]
            · by_cases hr : dep.name ++ "@" ++ dep.versionRange ∈ st.resolving
              · simp [hv, hr]
              · cases hf : fetch dep.name dep.versionRange with
                | none => simp [hv, hr, hf]
                | some info =>
                    simp only [hv, hr, hf]
                    rw [exceptFoldlM_congr
                      (fun acc subDep =>
                        resolveDependency fetch registry f1 subDep acc (depth + 1))
                      (fun acc subDep =>
                        resolveDependency fetch registry f2 subDep acc (depth + 1))
                      (convertDependencies info.dependencies)
                      (fun b a => ih f2 a b (depth + 1) (by omega) (by omega))]

theorem downloadBatch_hit (net : String → NetOutcome) (pathOf : ResolvedPackage → String)
    (pkg : ResolvedPackage) (fs : List (String × String))
    (h : jsMapHas fs (pathOf pkg) = true) :
    downloadBatch net pathOf [pkg] fs = (fs, [(false, .ok (pathOf pkg))]) := by
  simp [downloadBatch, downloadStep, h]

theorem downloadBatch_interrupted (net : String → NetOutcome)
    (pathOf : ResolvedPackage → String) (pkg : ResolvedPackage)
    (fs : List (String × String)) (tr : String)
    (h : jsMapHas fs (pathOf pkg) = false)
    (hnet : net pkg.downloadUrl = .interrupted tr) :
    downloadBatch net pathOf [pkg] fs =
      (jsMapSet fs (pathOf pkg) tr,
       [(true, .error ("Failed to download " ++ pkg.downloadUrl))]) := by
  simp [downloadBatch, downloadStep, h, hnet]

theorem downloadBatch_cached (net : String → NetOutcome)
    (pathOf : ResolvedPackage → String) (pkgs : List ResolvedPackage) :
    ∀ (fs : List (String × String)) (i : Nat) (pkg : ResolvedPackage),
      pkgs[i]? = some pkg → jsMapHas fs (pathOf pkg) = true →
      (downloadBatch net pathOf pkgs fs).2[i]? = some (false, .ok (pathOf pkg)) := by
  induction pkgs with
  | nil => intro fs i pkg h _; simp at h
  | cons q rest ih =>
      intro fs i pkg h hhas
      cases i with
      | zero =>
          simp only [List.getElem?_cons_zero, Option.some.injEq] at h
          subst h
          simp [downloadBatch, downloadStep, hhas]
      | succ i =>
          simp only [List.getElem?_cons_succ] at h
          simpa [downloadBatch] using
            ih (downloadStep net fs (pathOf q) q.downloadUrl).1 i pkg h
              (downloadStep_has_mono net fs (pathOf q) q.downloadUrl (pathOf pkg) hhas)

/-- C5, counterexample.  The claim says every cache write is staged to a
temporary location and moved into place, so after an interrupted fetch the
final cache path holds either a complete artifact or no file at all.  Both
adapters in fact open the write stream directly on the final cache path: an
interrupted transfer rejects the download (first conjunct) yet leaves the
truncated bytes at the final cache path (second conjunct), and a subsequent
fetch's existence check accepts that partial file and returns it with no
network call (third conjunct). -/
theorem c5_partial_file_at_final_path :
    (nodeDownloadPackages netInterrupted "cache" [pkgA] []).2 =
      [(true, .error ("Failed to download " ++ pkgA.downloadUrl))] ∧
    jsMapGet (nodeDownloadPackages netInterrupted "cache" [pkgA] []).1
      (nodeCachePath "cache" pkgA) = some "TRUNCATED-BYTES" ∧
    nodeDownloadPackages netFine "cache" [pkgA]
        (nodeDownloadPackages netInterrupted "cache" [pkgA] []).1 =
      ((nodeDownloadPackages netInterrupted "cache" [pkgA] []).1,
       [(false, .ok (nodeCachePath "cache" pkgA))]) := by decide

/-- C5, amended.  Fetch streams directly to the final cache path with no
temporary staging, in both adapters: when the cache misses and the transfer
is interrupted after `tr` bytes, the download rejects, the final cache path
holds exactly the truncated bytes, and any later fetch for the same package
accepts the partial file via its existence check and returns the path without
touching the network. -/
theorem c5_no_temp_staging :
    (∀ (net net2 : String → NetOutcome) (cacheDir : String) (pkg : ResolvedPackage)
        (fs : List (String × String)) (tr : String),
      jsMapHas fs (nodeCachePath cacheDir pkg) = false →
      net pkg.downloadUrl = .interrupted tr →
      (nodeDownloadPackages net cacheDir [pkg] fs).2 =
        [(true, .error ("Failed to download " ++ pkg.downloadUrl))] ∧
      jsMapGet (nodeDownloadPackages net cacheDir [pkg] fs).1
        (nodeCachePath cacheDir pkg) = some tr ∧
      nodeDownloadPackages net2 cacheDir [pkg]
          (nodeDownloadPackages net cacheDir [pkg] fs).1 =
        ((nodeDownloadPackages net cacheDir [pkg] fs).1,
         [(false, .ok (nodeCachePath cacheDir pkg))])) ∧
    (∀ (net net2 : String → NetOutcome) (cacheDir : String) (pkg : ResolvedPackage)
        (fs : List (String × String)) (tr : String),
      jsMapHas fs (pyCachePath cacheDir pkg) = false →
      net pkg.downloadUrl = .interrupted tr →
      (pyDownloadPackages net cacheDir [pkg] fs).2 =
        [(true, .error ("Failed to download " ++ pkg.downloadUrl))] ∧
      jsMapGet (pyDownloadPackages net cacheDir [pkg] fs).1
        (pyCachePath cacheDir pkg) = some tr ∧
      pyDownloadPackages net2 cacheDir [pkg]
          (pyDownloadPackages net cacheDir [pkg] fs).1 =
        ((pyDownloadPackages net cacheDir [pkg] fs).1,
         [(false, .ok (pyCachePath cacheDir pkg))])) := by
  constructor
  · intro net net2 cacheDir pkg fs tr h hnet
    simp only [nodeDownloadPackages]
    rw [downloadBatch_interrupted net _ pkg fs tr h hnet]
    refine ⟨rfl, jsMapGet_set_self fs _ tr, ?_⟩
    rw [downloadBatch_hit net2 _ pkg _ (jsMapHas_set_self fs _ tr)]
  · intro net net2 cacheDir pkg fs tr h hnet
    simp only [pyDownloadPackages]
    rw [downloadBatch_interrupted net _ pkg fs tr h hnet]
    refine ⟨rfl, jsMapGet_set_self fs _ tr, ?_⟩
    rw [downloadBatch_hit net2 _ pkg _ (jsMapHas_set_self fs _ tr)]

/-- C5, witness: the amended theorem applied to the concrete interrupted
transfer of `pkgA` into an empty cache. -/
theorem c5_no_temp_staging_witness :
    jsMapHas ([] : List (String × String)) (nodeCachePath "cache" pkgA) = false ∧
    jsMapGet (nodeDownloadPackages netInterrupted "cache" [pkgA] []).1
      (nodeCachePath "cache" pkgA) = some "TRUNCATED-BYTES" :=
  ⟨by decide,
   (c5_no_temp_staging.1 netInterrupted netFine "cache" pkgA [] "TRUNCATED-BYTES"
      (by decide) (by decide)).2.1⟩

/-- C7, counterexample.  The claim says installing the same resolved
(name, version) twice performs at most one artifact copy and the second run
skips the package.  A Python source distribution leaves no `.dist-info`
marker behind, so the `.dist-info` idempotency check never fires: installing
the sdist `foo@1.0.0` twice copies twice, and the second run reports the
package as installed again rather than skipping it. -/
theorem c7_sdist_not_idempotent :
    ((pyInstallPackages [sdistFoo] []).2.1.installed = [("foo", "1.0.0")] ∧
     (pyInstallPackages [sdistFoo] []).2.2 = 1) ∧
    ((pyInstallPackages [sdistFoo] (pyInstallPackages [sdistFoo] []).1).2.1.installed =
       [("foo", "1.0.0")] ∧
     (pyInstallPackages [sdistFoo] (pyInstallPackages [sdistFoo] []).1).2.2 = 1) := by
  decide

/-- C7, amended.  Node installs are idempotent per (name, version): re-running
`installPackages` on the same artifact performs no copy and reports the
package in neither the installed nor the errors list, because the
`package.json` left at the target with matching name and version suppresses
the copy (first conjunct, for every artifact and every prior target state).
Python wheel installs are likewise idempotent via the `.dist-info` directory
the wheel itself carries (second conjunct).  Python source-distribution
installs leave no marker and are not idempotent (the counterexample). -/
theorem c7_install_idempotent :
    (∀ (art : NodeArtifact) (tgt : List (String × (String × String))),
      nodeInstallPackages [art] (nodeInstallPackages [art] tgt).1 =
        ((nodeInstallPackages [art] tgt).1,
         { installed := [], updated := [], removed := [], errors := [] }, 0)) ∧
    (∀ (fname n v : String) (entries : List String) (hp : Bool) (site : List String),
      jsEndsWith fname ".whl" = true →
      pyDistInfoName n v ∈ entries →
      pyInstallPackages [⟨fname, some (n, v), entries, hp⟩]
          (pyInstallPackages [⟨fname, some (n, v), entries, hp⟩] site).1 =
        ((pyInstallPackages [⟨fname, some (n, v), entries, hp⟩] site).1,
         { installed := [], updated := [], removed := [], errors := [] }, 0)) := by
  constructor
  · intro art tgt
    obtain ⟨pj⟩ := art
    cases pj with
    | none => simp [nodeInstallPackages]
    | some nv =>
        obtain ⟨n, v⟩ := nv
        cases hg : jsMapGet tgt (nodePackageDir n) with
        | none => simp [nodeInstallPackages, hg, jsMapGet_set_self]
        | some e =>
            by_cases h1 : e.1 = n <;> by_cases h2 : e.2 = v <;>
              simp [nodeInstallPackages, hg, h1, h2, jsMapGet_set_self]
  · intro fname n v entries hp site hw hmem
    by_cases hskip : pyDistInfoName n v ∈ site
    · simp [pyInstallPackages, hw, hskip]
    · have hmem' : pyDistInfoName n v ∈ entries.foldl siteAdd site :=
        mem_foldl_siteAdd_of_mem entries site _ hmem
      simp [pyInstallPackages, hw, hskip, hmem']

/-- C7, witness: the amended theorem's wheel part applied to the concrete
wheel `bar@2.0.0` (whose extracted items include `bar-2.0.0.dist-info`)
installed into an empty `site-packages`. -/
theorem c7_install_idempotent_witness :
    jsEndsWith "bar-2.0.0-py3-none-any.whl" ".whl" = true ∧
    pyInstallPackages [wheelBar] (pyInstallPackages [wheelBar] []).1 =
      ((pyInstallPackages [wheelBar] []).1,
       { installed := [], updated := [], removed := [], errors := [] }, 0) :=
  ⟨by decide,
   c7_install_idempotent.2 "bar-2.0.0-py3-none-any.whl" "bar" "2.0.0"
     ["bar", "bar-2.0.0.dist-info"] false [] (by decide) (by decide)⟩

/-- C8.  Fetch is idempotent against the cache, in both adapters: for every
package list, every position `i` whose package already has an artifact at its
computed cache path sees no network call and gets the existing cache path
back at position `i` of the results. -/
theorem c8_fetch_idempotent_cache :
    (∀ (net : String → NetOutcome) (cacheDir : String) (pkgs : List ResolvedPackage)
        (fs : List (String × String)) (i : Nat) (pkg : ResolvedPackage),
      pkgs[i]? = some pkg → jsMapHas fs (nodeCachePath cacheDir pkg) = true →
      (nodeDownloadPackages net cacheDir pkgs fs).2[i]? =
        some (false, .ok (nodeCachePath cacheDir pkg))) ∧
    (∀ (net : String → NetOutcome) (cacheDir : String) (pkgs : List ResolvedPackage)
        (fs : List (String × String)) (i : Nat) (pkg : ResolvedPackage),
      pkgs[i]? = some pkg → jsMapHas fs (pyCachePath cacheDir pkg) = true →
      (pyDownloadPackages net cacheDir pkgs fs).2[i]? =
        some (false, .ok (pyCachePath cacheDir pkg))) :=
  ⟨fun net cacheDir pkgs fs i pkg h hhas =>
     downloadBatch_cached net (nodeCachePath cacheDir) pkgs fs i pkg h hhas,
   fun net cacheDir pkgs fs i pkg h hhas =>
     downloadBatch_cached net (pyCachePath cacheDir) pkgs fs i pkg h hhas⟩

/-- C8, witness: both parts applied to a one-package batch whose artifact is
already cached. -/
theorem c8_fetch_idempotent_cache_witness :
    jsMapHas [(nodeCachePath "cache" pkgA, "BYTES")] (nodeCachePath "cache" pkgA) = true ∧
    (nodeDownloadPackages netFine "cache" [pkgA]
        [(nodeCachePath "cache" pkgA, "BYTES")]).2[0]? =
      some (false, .ok (nodeCachePath "cache" pkgA)) ∧
    (pyDownloadPackages netFine "cache" [pkgA]
        [(pyCachePath "cache" pkgA, "BYTES")]).2[0]? =
      some (false, .ok (pyCachePath "cache" pkgA)) :=
  ⟨by decide,
   c8_fetch_idempotent_cache.1 netFine "cache" [pkgA]
     [(nodeCachePath "cache" pkgA, "BYTES")] 0 pkgA (by decide) (by decide),
   c8_fetch_idempotent_cache.2 netFine "cache" [pkgA]
     [(pyCachePath "cache" pkgA, "BYTES")] 0 pkgA (by decide) (by decide)⟩

end Forge
